import Mathlib

/-!
Shallow embedding of the Trivil playground backend
(`TrivilCompilerService.java`, `TrivilSyntaxAnalysisService.java`,
`CompileResponse.java`, `SyntaxToken.java`).

Java `String` values are modelled as `List Char`; every partial Java
operation is modelled totally with the same observable behaviour.
External processes and the filesystem are oracles threaded through the
definitions, and the side effects of the service methods are recorded as
explicit event traces so that ordering claims can be stated.
-/

namespace Trivil

/-! ### Java string primitives over `List Char` -/

/-- Characters removed by Java `String.trim` (code point at most U+0020). -/
def javaSpace (c : Char) : Bool := c.toNat ≤ 32

/-- Characters matched by the Java regex class `\s`. -/
def regexSpace (c : Char) : Bool :=
  c = ' ' || c = '\t' || c = '\n' || c.toNat = 11 || c.toNat = 12 || c = '\r'

/-- ASCII digit, Java regex `\d`. -/
def digitChar (c : Char) : Bool := '0' ≤ c && c ≤ '9'

/-- Java regex word character `\w` (default, non-Unicode): `[A-Za-z0-9_]`. -/
def asciiWordChar (c : Char) : Bool :=
  ('a' ≤ c && c ≤ 'z') || ('A' ≤ c && c ≤ 'Z') || digitChar c || c = '_'

/-- First character of the service's identifier regex
`[а-яёА-ЯЁa-zA-Z_]`. -/
def identStartChar (c : Char) : Bool :=
  ('а' ≤ c && c ≤ 'я') || c = 'ё' || ('А' ≤ c && c ≤ 'Я') || c = 'Ё' ||
  ('a' ≤ c && c ≤ 'z') || ('A' ≤ c && c ≤ 'Z') || c = '_'

/-- Continuation character of the identifier regex
`[а-яёА-ЯЁa-zA-Z0-9_-]`. -/
def identContChar (c : Char) : Bool :=
  identStartChar c || digitChar c || c = '-'

/-- Character class of the service's `OPERATOR_PATTERN`. -/
def operatorChar (c : Char) : Bool :=
  c = '+' || c = '-' || c = '*' || c = '/' || c = '=' || c = '<' || c = '>' ||
  c = '!' || c = '&' || c = '|' || c = '^' || c = '%' || c = ':' || c = ';' ||
  c = ',' || c = '.' || c = '(' || c = ')' || c = '[' || c = ']' ||
  c = '{' || c = '}'

/-- Java `Character.isLetter`, restricted to the ASCII and Cyrillic
letters that can appear in the service's identifiers. -/
def javaLetter (c : Char) : Bool :=
  ('a' ≤ c && c ≤ 'z') || ('A' ≤ c && c ≤ 'Z') ||
  ('А' ≤ c && c ≤ 'я') || c = 'Ё' || c = 'ё'

/-- Convert a Lean string literal to the `List Char` model. -/
def s2c (s : String) : List Char := s.data

/-- Java `String.trim`: drop leading and trailing chars of code at most
U+0020. -/
def javaTrim (l : List Char) : List Char :=
  ((l.dropWhile javaSpace).reverse.dropWhile javaSpace).reverse

/-- Java `String.startsWith`. -/
def startsWithL (l pre : List Char) : Bool := pre.isPrefixOf l

/-- Java `String.endsWith`. -/
def endsWithL (l suf : List Char) : Bool := suf.isSuffixOf l

/-- Java `String.indexOf(sub)` (position of the leftmost occurrence). -/
def indexOfSubAux (pat : List Char) : List Char → Nat → Option Nat
  | [], pos => if pat = [] then some pos else none
  | c :: rest, pos =>
    if pat.isPrefixOf (c :: rest) then some pos
    else indexOfSubAux pat rest (pos + 1)

def indexOfSub (l pat : List Char) : Option Nat := indexOfSubAux pat l 0

/-- Java `String.indexOf(sub, from)`. -/
def indexOfSubFrom (l pat : List Char) (start : Nat) : Option Nat :=
  (indexOfSubAux pat (l.drop start) 0).map (· + start)

/-- Java `String.contains`. -/
def containsSub (l pat : List Char) : Bool := (indexOfSub l pat).isSome

/-- Java `String.lastIndexOf(sub)` (position of the rightmost
occurrence). -/
def lastIndexOfSubAux (pat : List Char) : List Char → Nat → Option Nat → Option Nat
  | [], pos, best => if pat = [] then some pos else best
  | c :: rest, pos, best =>
    lastIndexOfSubAux pat rest (pos + 1)
      (if pat.isPrefixOf (c :: rest) then some pos else best)

def lastIndexOfSub (l pat : List Char) : Option Nat := lastIndexOfSubAux pat l 0 none

/-- Java `String.substring(a, b)`. -/
def subChars (l : List Char) (a b : Nat) : List Char := (l.take b).drop a

/-- Split at every occurrence of a separator character, keeping empty
parts (the raw split underlying Java `String.split`). -/
def splitOnCharAux (sep : Char) : List Char → List Char → List (List Char)
  | [], acc => [acc.reverse]
  | c :: rest, acc =>
    if c = sep then acc.reverse :: splitOnCharAux sep rest []
    else splitOnCharAux sep rest (c :: acc)

def splitOnChar (sep : Char) (l : List Char) : List (List Char) :=
  splitOnCharAux sep l []

/-- Remove trailing empty strings, as Java `String.split` does. -/
def removeTrailingEmpty (parts : List (List Char)) : List (List Char) :=
  (parts.reverse.dropWhile List.isEmpty).reverse

/-- Java `String.split("\n")`: raw split, trailing empty strings
removed, and splitting the empty string yields one empty part. -/
def splitLinesJava (l : List Char) : List (List Char) :=
  if l = [] then [[]] else removeTrailingEmpty (splitOnChar '\n' l)

/-- Newline normalisation used by `sanitizeInput` and `CompileRequest`:
remove NUL, then CRLF to LF, then CR to LF. -/
def normalizeNewlines : List Char → List Char
  | [] => []
  | '\r' :: '\n' :: rest => '\n' :: normalizeNewlines rest
  | '\r' :: rest => '\n' :: normalizeNewlines rest
  | c :: rest => c :: normalizeNewlines rest

/-- `TrivilSyntaxAnalysisService.sanitizeInput`: strip NUL bytes and
normalise line endings. -/
def sanitizeInput (l : List Char) : List Char :=
  normalizeNewlines (l.filter (fun c => c ≠ Char.ofNat 0))

/-! ### Module wrapping (`wrapInTrivilModule`) -/

/-- `TrivilSyntaxAnalysisService.wrapInTrivilModule`.  The module name
uses `System.currentTimeMillis() % 10000`, passed here explicitly as
`nowMod`. -/
def wrapInTrivilModule (nowMod : Nat) (userCode : List Char) : List Char :=
  if startsWithL (javaTrim userCode) (s2c "модуль ") then userCode
  else
    s2c "модуль " ++ s2c "sample_" ++ s2c (toString (nowMod % 10000)) ++ s2c "\n\n" ++
    (if containsSub userCode (s2c "вывод") then s2c "импорт \"стд::вывод\"\n\n" else []) ++
    (if containsSub userCode (s2c "ввод") then s2c "импорт \"стд::ввод\"\n\n" else []) ++
    (if containsSub userCode (s2c "файл") then s2c "импорт \"стд::файл\"\n\n" else []) ++
    userCode

/-! ### Tokens -/

/-- `SyntaxToken.java`: a positioned, classified span of source text.
`semanticInfo` is the optional semantic tag (`null` in Java). -/
structure SyntaxToken where
  startLine : Nat
  startColumn : Nat
  endLine : Nat
  endColumn : Nat
  tokenType : List Char
  value : List Char
  semanticInfo : Option (List Char)
deriving Repr, DecidableEq

/-! ### Matchers for the token patterns of the static pass

Each Java `Pattern`/`Matcher.find()` loop is modelled by a scanner that
tries the pattern at each position left to right, continues after the
end of a successful match, and advances one character after a failed
attempt — the observable semantics of `Matcher.find`.  Scanners that
can jump more than one character per step take a fuel argument; callers
pass `length + 1` fuel, which is enough because every step consumes at
least one character. -/

/-- Leftmost match position of `COMMENT_PATTERN` (`//.*$`) on one line:
the first occurrence of `//`. -/
def findCommentIdx : List Char → Nat → Option Nat
  | '/' :: '/' :: _, pos => some pos
  | _ :: rest, pos => findCommentIdx rest (pos + 1)
  | [], _ => none

/-- Body scan of `STRING_PATTERN` (`"(?:[^"\\]|\\.)*"`) after an opening
quote: returns the body (escapes kept) and the suffix after the closing
quote, or `none` when the literal is unterminated. -/
def scanStrBody : List Char → Option (List Char × List Char)
  | [] => none
  | '"' :: r => some ([], r)
  | '\\' :: c :: r =>
    match scanStrBody r with
    | some (b, r2) => some ('\\' :: c :: b, r2)
    | none => none
  | ['\\'] => none
  | c :: r =>
    match scanStrBody r with
    | some (b, r2) => some (c :: b, r2)
    | none => none

/-- All matches of `STRING_PATTERN` with (start, end) positions and
matched text. -/
def findStringsAux : Nat → List Char → Nat → List (Nat × Nat × List Char)
  | 0, _, _ => []
  | _ + 1, [], _ => []
  | fuel + 1, c :: rest, pos =>
    if c = '"' then
      match scanStrBody rest with
      | some (body, rest2) =>
        (pos, pos + body.length + 2, '"' :: (body ++ ['"'])) ::
          findStringsAux fuel rest2 (pos + body.length + 2)
      | none => findStringsAux fuel rest (pos + 1)
    else findStringsAux fuel rest (pos + 1)

def findStrings (l : List Char) : List (Nat × Nat × List Char) :=
  findStringsAux (l.length + 1) l 0

/-- Word-boundary test on the character preceding a candidate number
(`\b` before `\d+`). -/
def boundaryBefore : Option Char → Bool
  | none => true
  | some c => !asciiWordChar c

/-- Word-boundary test at the position after a candidate number. -/
def boundaryAfter : List Char → Bool
  | [] => true
  | c :: _ => !asciiWordChar c

/-- All matches of `NUMBER_PATTERN` (`\b\d+(?:\.\d+)?\b`).  At a digit
with a boundary before it the matcher takes the maximal digit run, then
greedily the optional `.digits` fraction; if the trailing boundary
fails after the fraction the engine backtracks to the integer part
(always boundary-correct there because `.` is not a word character),
and if it fails directly after the digit run there is no match at this
start. -/
def findNumbersAux : Nat → Option Char → List Char → Nat → List (Nat × Nat × List Char)
  | 0, _, _, _ => []
  | _ + 1, _, [], _ => []
  | fuel + 1, prev, c :: rest, pos =>
    if digitChar c && boundaryBefore prev then
      let ds := rest.takeWhile digitChar
      let after1 := rest.drop ds.length
      let cand : Option (Nat × List Char × Char) :=
        match after1 with
        | '.' :: d2 :: r2 =>
          if digitChar d2 then
            let fs := (d2 :: r2).takeWhile digitChar
            let afterF := (d2 :: r2).drop fs.length
            if boundaryAfter afterF then
              some (ds.length + 1 + fs.length, (c :: ds) ++ '.' :: fs, fs.getLastD '0')
            else some (ds.length, c :: ds, (c :: ds).getLastD '0')
          else some (ds.length, c :: ds, (c :: ds).getLastD '0')
        | a :: _ =>
          if asciiWordChar a then none else some (ds.length, c :: ds, (c :: ds).getLastD '0')
        | [] => some (ds.length, c :: ds, (c :: ds).getLastD '0')
      match cand with
      | some (k, txt, lc) =>
        (pos, pos + 1 + k, txt) :: findNumbersAux fuel (some lc) (rest.drop k) (pos + 1 + k)
      | none => findNumbersAux fuel (some c) rest (pos + 1)
    else findNumbersAux fuel (some c) rest (pos + 1)

def findNumbers (l : List Char) : List (Nat × Nat × List Char) :=
  findNumbersAux (l.length + 1) none l 0

/-- All matches of `IDENTIFIER_PATTERN` (maximal munch, no
boundaries). -/
def findIdentsAux : Nat → List Char → Nat → List (Nat × Nat × List Char)
  | 0, _, _ => []
  | _ + 1, [], _ => []
  | fuel + 1, c :: rest, pos =>
    if identStartChar c then
      let cs := rest.takeWhile identContChar
      (pos, pos + 1 + cs.length, c :: cs) ::
        findIdentsAux fuel (rest.drop cs.length) (pos + 1 + cs.length)
    else findIdentsAux fuel rest (pos + 1)

def findIdents (l : List Char) : List (Nat × Nat × List Char) :=
  findIdentsAux (l.length + 1) l 0

/-- All matches of `OPERATOR_PATTERN` (single characters). -/
def findOpsAux : List Char → Nat → List (Nat × Nat × List Char)
  | [], _ => []
  | c :: rest, pos =>
    if operatorChar c then (pos, pos + 1, [c]) :: findOpsAux rest (pos + 1)
    else findOpsAux rest (pos + 1)

def findOps (l : List Char) : List (Nat × Nat × List Char) := findOpsAux l 0

/-- `isInStringLiteral`: the position lies inside one of the recorded
string-literal ranges. -/
def isInStringLiteral (pos : Nat) (ranges : List (Nat × Nat)) : Bool :=
  ranges.any (fun r => decide (r.1 ≤ pos) && decide (pos < r.2))

/-! ### Matchers for the declaration-extraction patterns -/

/-- Match a literal at the head of the input. -/
def matchLit (pat l : List Char) : Option (List Char) :=
  if pat.isPrefixOf l then some (l.drop pat.length) else none

/-- Match one identifier (`[а-яёА-ЯЁa-zA-Z_][а-яёА-ЯЁa-zA-Z0-9_-]*`,
maximal munch) at the head of the input. -/
def matchIdent : List Char → Option (List Char × List Char)
  | [] => none
  | c :: rest =>
    if identStartChar c then
      let cs := rest.takeWhile identContChar
      some (c :: cs, rest.drop cs.length)
    else none

/-- One attempt of `фн\s+(IDENT)\s*\(` at the current position. -/
def tryFn (l : List Char) : Option (List Char × List Char) := do
  let l1 ← matchLit (s2c "фн") l
  let ws := l1.takeWhile regexSpace
  if ws.isEmpty then none
  else do
    let (nm, l3) ← matchIdent (l1.drop ws.length)
    match l3.dropWhile regexSpace with
    | '(' :: r => some (nm, r)
    | _ => none

/-- One attempt of `\(([^)]+)\)` (parenthesised section; the body may
contain further opening parentheses). -/
def tryParen : List Char → Option (List Char × List Char)
  | '(' :: r =>
    let body := r.takeWhile (fun c => c ≠ ')')
    if body.isEmpty then none
    else
      match r.drop body.length with
      | ')' :: r2 => some (body, r2)
      | _ => none
  | _ => none

/-- One attempt of `(IDENT)\s*:` (an individual parameter inside a
parenthesised section). -/
def tryParamColon (l : List Char) : Option (List Char × List Char) := do
  let (nm, l1) ← matchIdent l
  match l1.dropWhile regexSpace with
  | ':' :: r => some (nm, r)
  | _ => none

/-- One attempt of `пусть\s+(IDENT)\s*=`. -/
def tryLet (l : List Char) : Option (List Char × List Char) := do
  let l1 ← matchLit (s2c "пусть") l
  let ws := l1.takeWhile regexSpace
  if ws.isEmpty then none
  else do
    let (nm, l3) ← matchIdent (l1.drop ws.length)
    match l3.dropWhile regexSpace with
    | '=' :: r => some (nm, r)
    | _ => none

/-- One attempt of `(IDENT)\s*=\s*[^=]`.  The trailing `\s*[^=]` admits
a match exactly when a character other than `=` follows the equals sign
or a whitespace character can serve as the `[^=]` after backtracking;
the match extends over the greedily longest such split. -/
def tryAssign (l : List Char) : Option (List Char × List Char) := do
  let (nm, l1) ← matchIdent l
  match l1.dropWhile regexSpace with
  | '=' :: r =>
    let ws2 := r.takeWhile regexSpace
    match r.drop ws2.length with
    | c :: r2 =>
      if c ≠ '=' then some (nm, r2)
      else if ws2.isEmpty then none
      else some (nm, r.drop ws2.length)
    | [] => if ws2.isEmpty then none else some (nm, r.drop ws2.length)
  | _ => none

/-- One attempt of `(IDENT)\s*\(` (potential function call). -/
def tryCall (l : List Char) : Option (List Char × List Char) := do
  let (nm, l1) ← matchIdent l
  match l1.dropWhile regexSpace with
  | '(' :: r => some (nm, r)
  | _ => none

/-- `Matcher.find` loop for a capture pattern: try at each position,
continue after the end of a match, advance one character after a failed
attempt. -/
def scanMatches {α : Type} (att : List Char → Option (α × List Char)) :
    Nat → List Char → List α
  | 0, _ => []
  | _ + 1, [] => []
  | fuel + 1, c :: rest =>
    match att (c :: rest) with
    | some (cap, r2) => cap :: scanMatches att fuel r2
    | none => scanMatches att fuel rest

def findAll {α : Type} (att : List Char → Option (α × List Char)) (l : List Char) :
    List α :=
  scanMatches att (l.length + 1) l

/-- `Matcher.find` loop that also records each match's start position
(`Matcher.start()`). -/
def scanMatchesPos {α : Type} (att : List Char → Option (α × List Char)) :
    Nat → List Char → Nat → List (Nat × α)
  | 0, _, _ => []
  | _ + 1, [], _ => []
  | fuel + 1, c :: rest, pos =>
    match att (c :: rest) with
    | some (cap, r2) =>
      (pos, cap) :: scanMatchesPos att fuel r2 (pos + ((c :: rest).length - r2.length))
    | none => scanMatchesPos att fuel rest (pos + 1)

def findAllPos {α : Type} (att : List Char → Option (α × List Char)) (l : List Char) :
    List (Nat × α) :=
  scanMatchesPos att (l.length + 1) l 0

/-! ### The static lexical pass -/

def TRIVIL_KEYWORDS : List (List Char) :=
  [s2c "модуль", s2c "импорт", s2c "вход", s2c "пусть", s2c "если", s2c "иначе",
   s2c "пока", s2c "для", s2c "фн", s2c "функция", s2c "класс", s2c "тип",
   s2c "константа", s2c "переменная", s2c "возврат", s2c "вернуть", s2c "прервать",
   s2c "продолжить", s2c "выбор", s2c "случай", s2c "умолчание", s2c "и", s2c "или",
   s2c "не", s2c "истина", s2c "ложь"]

def BUILT_IN_TYPES : List (List Char) :=
  [s2c "Цел64", s2c "Слово64", s2c "Вещ64", s2c "Лог", s2c "Строка", s2c "Символ",
   s2c "Байт", s2c "Пусто"]

def BUILT_IN_FUNCTIONS : List (List Char) := []

/-- `extractFunctionNamesAndParameters`, function half: all captures of
the function pattern on one line. -/
def extractFunctionNamesLine (line : List Char) : List (List Char) :=
  findAll tryFn line

/-- `extractFunctionNamesAndParameters`, parameter half: every
`IDENT\s*:` capture inside every parenthesised section of the line. -/
def extractParameterNamesLine (line : List Char) : List (List Char) :=
  (findAll tryParen line).flatMap (fun sec => findAll tryParamColon sec)

/-- `extractVariableNames`, restricted to one line: `пусть` declarations
plus assignment left-hand sides that are not keywords or built-in
types. -/
def extractVariableNamesLine (line : List Char) : List (List Char) :=
  findAll tryLet line ++
    (findAll tryAssign line).filter
      (fun nm => !TRIVIL_KEYWORDS.contains nm && !BUILT_IN_TYPES.contains nm)

/-- `classifyIdentifier`. -/
def classifyIdentifier (t : List Char) : List Char :=
  if TRIVIL_KEYWORDS.contains t then s2c "KEYWORD"
  else if BUILT_IN_TYPES.contains t then s2c "BUILT_IN_TYPE"
  else if BUILT_IN_FUNCTIONS.contains t then s2c "BUILT_IN_FUNCTION"
  else s2c "IDENTIFIER"

/-- The `functionCalls` set of `analyzeGlobalContextAwareIdentifiers`:
call-shaped identifiers confirmed against the global and local function
sets. -/
def functionCallsIn (line : List Char) (gF lF : List (List Char)) : List (List Char) :=
  (findAll tryCall line).filter (fun nm => gF.contains nm || lF.contains nm)

/-- Priority classification of one identifier occurrence. -/
def classifyWithContext (lF lP calls gF gP gV : List (List Char)) (t : List Char) :
    List Char :=
  if lF.contains t || gF.contains t || calls.contains t then s2c "function.user"
  else if lP.contains t || gP.contains t then s2c "variable.parameter"
  else if gV.contains t then s2c "variable.user"
  else classifyIdentifier t

/-- `analyzeGlobalContextAwareIdentifiers`: re-extract line-local
function and parameter names, detect confirmed calls, then classify
every identifier occurrence outside string-literal ranges. -/
def analyzeGlobalContextAwareIdentifiers (line : List Char) (lineNum : Nat)
    (ranges : List (Nat × Nat)) (gF gP gV : List (List Char)) : List SyntaxToken :=
  let lF := extractFunctionNamesLine line
  let lP := extractParameterNamesLine line
  let calls := functionCallsIn line gF lF
  ((findIdents line).filter (fun m => !isInStringLiteral m.1 ranges)).map
    (fun m =>
      ⟨lineNum, m.1, lineNum, m.2.1, classifyWithContext lF lP calls gF gP gV m.2.2,
       m.2.2, none⟩)

/-- `analyzeLineTokensWithGlobalContext`: strip a trailing line comment,
record string-literal ranges, then emit comment, string, number,
identifier and operator tokens in that category order. -/
def analyzeLineTokensWithGlobalContext (line : List Char) (lineNum : Nat)
    (gF gP gV : List (List Char)) : List SyntaxToken :=
  let (commentToks, body) :=
    match findCommentIdx line 0 with
    | some i =>
      ([(⟨lineNum, i, lineNum, line.length, s2c "COMMENT", line.drop i, none⟩ : SyntaxToken)],
       line.take i)
    | none => ([], line)
  let strs := findStrings body
  let ranges := strs.map (fun m => (m.1, m.2.1))
  let strToks := strs.map (fun m =>
    (⟨lineNum, m.1, lineNum, m.2.1, s2c "STRING_LITERAL", m.2.2, none⟩ : SyntaxToken))
  let numToks := ((findNumbers body).filter (fun m => !isInStringLiteral m.1 ranges)).map
    (fun m => (⟨lineNum, m.1, lineNum, m.2.1, s2c "NUMBER_LITERAL", m.2.2, none⟩ : SyntaxToken))
  let identToks := analyzeGlobalContextAwareIdentifiers body lineNum ranges gF gP gV
  let opToks := ((findOps body).filter (fun m => !isInStringLiteral m.1 ranges)).map
    (fun m => (⟨lineNum, m.1, lineNum, m.2.1, s2c "OPERATOR", m.2.2, none⟩ : SyntaxToken))
  commentToks ++ strToks ++ numToks ++ identToks ++ opToks

/-- The per-line phase of `performStaticLexicalAnalysis`, parameterised
by the three global declaration sets (any list representation of the
Java `HashSet`s). -/
def performStaticWith (gF gP gV : List (List Char)) (src : List Char) : List SyntaxToken :=
  ((splitLinesJava src).enum).flatMap
    (fun p => analyzeLineTokensWithGlobalContext p.2 p.1 gF gP gV)

/-- `performStaticLexicalAnalysis`: pass 1 gathers global function,
parameter and variable names over all lines; pass 2 tokenises each line
with that global context. -/
def performStaticLexicalAnalysis (src : List Char) : List SyntaxToken :=
  let lines := splitLinesJava src
  let gF := lines.flatMap extractFunctionNamesLine
  let gP := lines.flatMap extractParameterNamesLine
  let gV := lines.flatMap extractVariableNamesLine
  performStaticWith gF gP gV src

/-! ### AST-text mining (`parseASTForSemanticInfo` and helpers) -/

/-- Capture `[^"]+` followed by its closing quote (the quote is
consumed). -/
def capToQuote1 (l : List Char) : Option (List Char × List Char) :=
  let body := l.takeWhile (fun c => c ≠ '"')
  if body.isEmpty then none
  else
    match l.drop body.length with
    | '"' :: r => some (body, r)
    | _ => none

/-- Capture `[^"]*` followed by its closing quote. -/
def capToQuote0 (l : List Char) : Option (List Char × List Char) :=
  let body := l.takeWhile (fun c => c ≠ '"')
  match l.drop body.length with
  | '"' :: r => some (body, r)
  | _ => none

/-- One attempt of `\(Function "([^"]+)" "functype"(?!.*External)`.
Without `DOTALL`, the lookahead inspects the rest of the current line
only. -/
def tryUserFunc (l : List Char) : Option (List Char × List Char) := do
  let l1 ← matchLit (s2c "(Function \"") l
  let (nm, l2) ← capToQuote1 l1
  let l3 ← matchLit (s2c " \"functype\"") l2
  let lineRest := l3.takeWhile (fun c => c ≠ '\n')
  if containsSub lineRest (s2c "External") then none else some (nm, l3)

/-- One attempt of `\(Import "([^"]+)"`. -/
def tryImport (l : List Char) : Option (List Char × List Char) := do
  let l1 ← matchLit (s2c "(Import \"") l
  capToQuote1 l1

/-- One attempt of `\(VarDecl "([^"]+)" "([^"]*?)"` (two captures). -/
def tryVarDecl (l : List Char) : Option ((List Char × List Char) × List Char) := do
  let l1 ← matchLit (s2c "(VarDecl \"") l
  let (nm, l2) ← capToQuote1 l1
  let l3 ← matchLit (s2c " \"") l2
  let (ty, l4) ← capToQuote0 l3
  some ((nm, ty), l4)

/-- One attempt of `\(IdentExpr "[^"]+" "([^"]+)"\)`. -/
def tryIdentExprExact (l : List Char) : Option (List Char × List Char) := do
  let l1 ← matchLit (s2c "(IdentExpr \"") l
  let (_, l2) ← capToQuote1 l1
  let l3 ← matchLit (s2c " \"") l2
  let (nm, l4) ← capToQuote1 l3
  let l5 ← matchLit (s2c ")") l4
  some (nm, l5)

/-- One attempt of `\(SelectorExpr "functype" "([^"]+)"\)`. -/
def trySelector (l : List Char) : Option (List Char × List Char) := do
  let l1 ← matchLit (s2c "(SelectorExpr \"functype\" \"") l
  let (nm, l2) ← capToQuote1 l1
  let l3 ← matchLit (s2c ")") l2
  some (nm, l3)

/-- One attempt of
`\(CallExpr "нет результата" \(IdentExpr "functype" RO "([^"]+)"\)`. -/
def tryUserCall (l : List Char) : Option (List Char × List Char) := do
  let l1 ← matchLit (s2c "(CallExpr \"нет результата\" (IdentExpr \"functype\" RO \"") l
  let (nm, l2) ← capToQuote1 l1
  let l3 ← matchLit (s2c ")") l2
  some (nm, l3)

/-- One attempt of `\(Function "([^"]+)" "functype"[^\(]*External`: after
the literal part, `External` must occur in the maximal run of
non-parenthesis characters; the greedy star places the match end after
the last such occurrence. -/
def tryExternalFunc (l : List Char) : Option (List Char × List Char) := do
  let l1 ← matchLit (s2c "(Function \"") l
  let (nm, l2) ← capToQuote1 l1
  let l3 ← matchLit (s2c " \"functype\"") l2
  let run := l3.takeWhile (fun c => c ≠ '(')
  match lastIndexOfSub run (s2c "External") with
  | some k => some (nm, l3.drop (k + 8))
  | none => none

/-- One attempt of
`\(IdentExpr\s+"[^"]*"\s+"([^"]+)"\)(?!\s*\))`. -/
def tryIdentExprLoose (l : List Char) : Option (List Char × List Char) := do
  let l1 ← matchLit (s2c "(IdentExpr") l
  let ws1 := l1.takeWhile regexSpace
  if ws1.isEmpty then none
  else do
    let l2 ← matchLit (s2c "\"") (l1.drop ws1.length)
    let (_, l3) ← capToQuote0 l2
    let ws2 := l3.takeWhile regexSpace
    if ws2.isEmpty then none
    else do
      let l4 ← matchLit (s2c "\"") (l3.drop ws2.length)
      let (nm, l5) ← capToQuote1 l4
      let l6 ← matchLit (s2c ")") l5
      let wsL := l6.takeWhile regexSpace
      match l6.drop wsL.length with
      | ')' :: _ => none
      | _ => some (nm, l6)

/-- One attempt of `\(Module "([^"]+)"`. -/
def tryModuleName (l : List Char) : Option (List Char × List Char) := do
  let l1 ← matchLit (s2c "(Module \"") l
  capToQuote1 l1

/-- Java `String.split` on a literal multi-character separator. -/
def splitSubAux (sep : List Char) : Nat → List Char → List Char → List (List Char)
  | 0, l, acc => [acc.reverse ++ l]
  | _ + 1, [], acc => [acc.reverse]
  | fuel + 1, c :: rest, acc =>
    if sep.isPrefixOf (c :: rest) then
      acc.reverse :: splitSubAux sep fuel ((c :: rest).drop sep.length) []
    else splitSubAux sep fuel rest (c :: acc)

def splitSubJava (sep l : List Char) : List (List Char) :=
  if l = [] then [[]]
  else removeTrailingEmpty (splitSubAux sep (l.length + 1) l [])

/-- Java `HashMap.put` (observationally: overwrite or append). -/
def putAssoc (m : List (List Char × List Char)) (k v : List Char) :
    List (List Char × List Char) :=
  if m.any (fun p => p.1 == k) then m.map (fun p => if p.1 == k then (k, v) else p)
  else m ++ [(k, v)]

/-- Java `HashMap.containsKey`. -/
def containsKeyAssoc (m : List (List Char × List Char)) (k : List Char) : Bool :=
  m.any (fun p => p.1 == k)

/-- Java `HashMap.get`. -/
def getAssoc (m : List (List Char × List Char)) (k : List Char) : Option (List Char) :=
  (m.find? (fun p => p.1 == k)).map (·.2)

/-- `extractUserCodeFromAST`: four locating strategies in priority
order.  Strategy 1 searches the trimmed prefix before the last
`Execute:` marker (indices into the trimmed string are applied to the
untrimmed dump, as in the source); strategy 2 uses the module before
`(EntryFn`; strategy 3 takes the last module whose name is not a known
system module; strategy 4 falls back to the last 2000 characters. -/
def extractUserCodeFromAST (astOutput : List Char) : List Char :=
  let s1 : List Char :=
    match lastIndexOfSub astOutput (s2c "Execute:") with
    | some executeIndex =>
      if executeIndex > 0 then
        let beforeExecute := javaTrim (astOutput.take executeIndex)
        match lastIndexOfSub beforeExecute (s2c "(Module \"") with
        | some lastModuleStart => javaTrim (subChars astOutput lastModuleStart executeIndex)
        | none => []
      else []
    | none => []
  let s2 : List Char :=
    if s1.isEmpty then
      match indexOfSub astOutput (s2c "(EntryFn") with
      | some entryFnIndex =>
        match lastIndexOfSub (astOutput.take entryFnIndex) (s2c "(Module \"") with
        | some moduleStart =>
          let moduleEnd := (indexOfSubFrom astOutput (s2c "Execute:") entryFnIndex).getD
            astOutput.length
          javaTrim (subChars astOutput moduleStart moduleEnd)
        | none => []
      | none => []
    else s1
  let s3 : List Char :=
    if s2.isEmpty then
      let userModules := (findAllPos tryModuleName astOutput).filter (fun pm =>
        !startsWithL pm.2 (s2c "стд::") && !startsWithL pm.2 (s2c "sys::") &&
        !startsWithL pm.2 (s2c "runtime::") && pm.2 ≠ s2c "builtin" &&
        pm.2 ≠ s2c "core" && pm.2 ≠ s2c "system")
      match userModules.getLast? with
      | some pm =>
        let moduleEnd := (indexOfSubFrom astOutput (s2c "Execute:") pm.1).getD
          astOutput.length
        javaTrim (subChars astOutput pm.1 moduleEnd)
      | none => []
    else s2
  if s3.isEmpty then astOutput.drop (astOutput.length - 2000) else s3

/-- `parseASTForSemanticInfo`: the ordered sequence of mining rules,
folded over the matches of each pattern in document order, building the
symbol-to-kind map. -/
def parseASTForSemanticInfo (astOutput : List Char) : List (List Char × List Char) :=
  let uc := extractUserCodeFromAST astOutput
  if uc.isEmpty then []
  else
    let m1 := (findAll tryUserFunc uc).foldl (fun m nm =>
      if !startsWithL nm (s2c "tri_") && !startsWithL nm (s2c "sysapi_") &&
         nm ≠ s2c "строка" && nm ≠ s2c "кс" && nm ≠ s2c "цел64" && nm ≠ s2c "ф" &&
         nm.length > 1
      then putAssoc m nm (s2c "USER_FUNCTION") else m) []
    let m2 := (findAll tryImport uc).foldl (fun m path =>
      let parts := splitSubJava (s2c "::") path
      if parts.length > 1 then
        putAssoc m (parts.getLastD []) (s2c "IMPORTED_CLASS:" ++ path)
      else m) m1
    let m3 := (findAll tryVarDecl uc).foldl (fun m pr =>
      if !TRIVIL_KEYWORDS.contains pr.1 && pr.1.length > 1 then
        putAssoc m pr.1 (s2c "USER_VARIABLE:" ++ pr.2)
      else m) m2
    let m4 := ((findAllPos tryIdentExprExact uc).foldl
      (fun (st : List (List Char × List Char) × List (List Char)) pm =>
        let nm := pm.2
        if !TRIVIL_KEYWORDS.contains nm && !BUILT_IN_TYPES.contains nm &&
           !containsKeyAssoc st.1 nm && nm ≠ s2c "RO" &&
           decide (1 ≤ nm.length) && decide (nm.length ≤ 10) &&
           javaLetter (nm.headD ' ') && !st.2.contains nm then
          if !containsSub (uc.take pm.1)
              (s2c "(Function \"" ++ nm ++ s2c "\" \"functype\"") then
            (putAssoc st.1 nm (s2c "FUNCTION_PARAMETER"), st.2 ++ [nm])
          else st
        else st) (m3, [])).1
    let m5 := (findAll trySelector uc).foldl (fun m nm =>
      if !containsKeyAssoc m nm && !TRIVIL_KEYWORDS.contains nm then
        putAssoc m nm (s2c "IMPORTED_METHOD")
      else m) m4
    let m6 := (findAll tryUserCall uc).foldl (fun m nm =>
      if !containsKeyAssoc m nm && !startsWithL nm (s2c "std") &&
         nm.length > 1 && !TRIVIL_KEYWORDS.contains nm then
        if containsSub uc (s2c "(Function \"" ++ nm ++ s2c "\" \"functype\"") then
          putAssoc m nm (s2c "USER_FUNCTION")
        else m
      else m) m5
    let m7 := (findAll tryExternalFunc astOutput).foldl (fun m nm =>
      if !containsKeyAssoc m nm then putAssoc m nm (s2c "IMPORTED_FUNCTION") else m) m6
    (findAll tryIdentExprLoose uc).foldl (fun m nm =>
      if !containsKeyAssoc m nm && !TRIVIL_KEYWORDS.contains nm &&
         !BUILT_IN_TYPES.contains nm && nm.length > 1 then
        if containsSub uc (s2c "(VarDecl \"" ++ nm) ||
           containsSub uc (s2c "= " ++ nm) || containsSub uc (nm ++ s2c " =") then
          putAssoc m nm (s2c "USER_VARIABLE")
        else m
      else m) m7

/-- `mapSemanticTypeToTokenType`. -/
def mapSemanticTypeToTokenType (semanticType : List Char) : List Char :=
  if semanticType = s2c "USER_FUNCTION" || semanticType = s2c "USER_FUNCTION_CALL" then
    s2c "function.user"
  else if semanticType = s2c "USER_VARIABLE" then s2c "variable.user"
  else if semanticType = s2c "FUNCTION_PARAMETER" then s2c "variable.parameter"
  else if semanticType = s2c "IMPORTED_CLASS" then s2c "class.imported"
  else if semanticType = s2c "IMPORTED_METHOD" ||
          semanticType = s2c "IMPORTED_FUNCTION" then s2c "function.imported"
  else if startsWithL semanticType (s2c "USER_VARIABLE:") then s2c "variable.user"
  else if startsWithL semanticType (s2c "FUNCTION_PARAMETER:") then s2c "variable.parameter"
  else if startsWithL semanticType (s2c "IMPORTED_CLASS:") then s2c "class.imported"
  else s2c "identifier"

/-- `improveBasicTokenType`. -/
def improveBasicTokenType (t : SyntaxToken) : List Char :=
  if TRIVIL_KEYWORDS.contains t.value then s2c "keyword"
  else if t.value = s2c "Цел64" || t.value = s2c "Строка" || t.value = s2c "Булев" ||
          t.value = s2c "Плав64" then s2c "type.builtin"
  else t.tokenType

/-- `enhanceTokensWithSemanticInfo`: the in-place token rewrite, as a
map over the token list. -/
def enhanceTokensWithSemanticInfo (tokens : List SyntaxToken)
    (semanticInfo : List (List Char × List Char)) : List SyntaxToken :=
  tokens.map (fun t =>
    match getAssoc semanticInfo t.value with
    | some semanticType =>
      ⟨t.startLine, t.startColumn, t.endLine, t.endColumn,
       mapSemanticTypeToTokenType semanticType, t.value, some semanticType⟩
    | none =>
      let improved := improveBasicTokenType t
      if improved ≠ t.tokenType then
        ⟨t.startLine, t.startColumn, t.endLine, t.endColumn, improved, t.value, none⟩
      else t)

/-! ### Process and filesystem effect model

External processes are oracles (`ProcResult`), the workspace filesystem
is the list of file names in the temp directory (in directory-listing
order), and the side effects of each service method are recorded as an
event trace.  `Event.spawn` marks a successfully created process,
`Event.drainStart` the start of an asynchronous output-reader task,
`Event.waitStart` the beginning of the bounded `waitFor`,
`Event.readOutput` a synchronous output read after the wait. -/

inductive Event where
  | createDir (d : List Char)
  | writeFile (f : List Char)
  | deleteFile (f : List Char)
  | spawn
  | register (pid : List Char)
  | drainStart
  | waitStart
  | readOutput
  | killProc
  | deregister (pid : List Char)
deriving Repr, DecidableEq

/-- Outcome of one external process invocation. -/
inductive ProcResult where
  | spawnFail (msg : List Char)
  | timedOut
  | exited (code : Int) (raw : List Char)
deriving Repr, DecidableEq

/-- `TrivilCompilerService.readProcessOutput`: read the merged stream
line by line, re-join with `\n`, trim.  Observationally this normalises
line terminators and trims the result. -/
def readProcessOutput (raw : List Char) : List Char :=
  javaTrim (normalizeNewlines raw)

/-! ### The analyze-service process runner (`runCompilerToolSafely`) -/

/-- Oracle for one `runCompilerToolSafely` call: the process outcome,
whether the output future completes within its 5s grace period, the
sweep's keep-decision per registry entry, and whether the process still
reports alive in the `finally` block. -/
structure RunnerEnv where
  proc : ProcResult
  drainOk : Bool
  zombieKeep : List Char → Bool
  aliveAtFinally : Bool

/-- `cleanupZombieProcesses`: `removeIf` over the registry; an entry is
kept only when its non-blocking poll confirms it alive and finished
(the keep-decision is the oracle). -/
def cleanupZombieProcesses (zombieKeep : List Char → Bool)
    (registry : List (List Char)) : List (List Char) :=
  registry.filter zombieKeep

/-- `runCompilerToolSafely`: spawn, register in `activeProcesses`, start
the asynchronous output reader, wait up to the compilation timeout;
force-kill and throw on timeout; always deregister in the `finally`
block.  Returns the result, the final registry, and the event trace.
The written source file content is received but the process itself is
an oracle. -/
def runCompilerToolSafely (compilationTimeoutMs : Nat) (env : RunnerEnv)
    (_sourceFile : List Char) (counter : Nat) (registry : List (List Char)) :
    Except (List Char) (List Char) × List (List Char) × List Event :=
  let pid := s2c "compiler-" ++ s2c (toString (counter + 1))
  match env.proc with
  | .spawnFail m =>
    (.error (s2c "Failed to run compiler tool: " ++ m), registry.erase pid,
     [Event.deregister pid])
  | .timedOut =>
    let reg1 := registry ++ [pid]
    let reg2 := cleanupZombieProcesses env.zombieKeep reg1
    (.error (s2c "Compiler tool timed out after " ++
       s2c (toString compilationTimeoutMs) ++ s2c "ms"),
     reg2.erase pid,
     [Event.spawn, Event.register pid, Event.drainStart, Event.waitStart,
      Event.killProc, Event.deregister pid] ++
       (if env.aliveAtFinally then [Event.killProc] else []))
  | .exited _ raw =>
    let reg1 := registry ++ [pid]
    (.ok (if env.drainOk then raw else []), reg1.erase pid,
     [Event.spawn, Event.register pid, Event.drainStart, Event.waitStart,
      Event.readOutput, Event.deregister pid] ++
       (if env.aliveAtFinally then [Event.killProc] else []))

/-! ### The analyze entry point (`analyzeSyntax`) -/

/-- Oracle for one `analyzeSyntax` call: whether workspace creation and
the source write succeed, the wall-clock salt of the module name, and
the runner oracle. -/
structure AnalyzeEnv where
  fsOk : Bool
  nowMod : Nat
  runner : RunnerEnv
  counter : Nat
  registry0 : List (List Char)
  compilationTimeoutMs : Nat

/-- `analyzeSyntax`: the static pass always runs; the semantic pass
wraps the snippet, invokes the AST dump through
`runCompilerToolSafely`, and on any failure (workspace or invocation)
silently falls back to the static tokens. -/
def analyzeSyntax (env : AnalyzeEnv) (src : List Char) : List SyntaxToken :=
  let userCode := sanitizeInput src
  let tokens := performStaticLexicalAnalysis userCode
  if env.fsOk then
    let wrapped := wrapInTrivilModule env.nowMod userCode
    match (runCompilerToolSafely env.compilationTimeoutMs env.runner wrapped
        env.counter env.registry0).1 with
    | .ok astOutput =>
      enhanceTokensWithSemanticInfo tokens (parseASTForSemanticInfo astOutput)
    | .error _ => tokens
  else tokens

/-! ### The compile service (`TrivilCompilerService`) -/

/-- `TrivilCompilerProperties` (the fields the core uses). -/
structure JProps where
  compilerPath : List Char
  tempDirectory : List Char
  compilationTimeoutMs : Nat
  executionTimeoutMs : Nat
  maxSourceCodeLength : Nat
  maxOutputLength : Nat

/-- `CompileResponse.java`. -/
structure CompileResponse where
  success : Bool
  output : Option (List Char)
  error : Option (List Char)
  executionTimeMs : Option Nat
  resultType : List Char
deriving Repr, DecidableEq

/-- `CompileResponse.success(output, executionTimeMs)`. -/
def CompileResponse.successResponse (output : List Char) (executionTimeMs : Nat) :
    CompileResponse :=
  ⟨true, some output, none, some executionTimeMs, s2c "success"⟩

/-- `CompileResponse.compilationError(error)`. -/
def CompileResponse.compilationError (error : List Char) : CompileResponse :=
  ⟨false, none, some error, none, s2c "compilation_error"⟩

/-- `CompileResponse.runtimeError(error, executionTimeMs)`. -/
def CompileResponse.runtimeError (error : List Char) (executionTimeMs : Nat) :
    CompileResponse :=
  ⟨false, none, some error, some executionTimeMs, s2c "runtime_error"⟩

/-- `CompileResponse.timeout(message)` — defined by the DTO, for the
result kind the spec calls `timeout`. -/
def CompileResponse.timeoutResponse (message : List Char) : CompileResponse :=
  ⟨false, none, some message, none, s2c "timeout"⟩

/-- Oracle for one `compileAndExecute` call: the compiler process, the
files it leaves in the temp directory, the executed program's process,
and the measured elapsed time. -/
structure CompileEnv where
  compileProc : ProcResult
  compilerCreates : List (List Char)
  execProc : ProcResult
  elapsedMs : Nat
deriving Repr, DecidableEq

/-- The file filter of `cleanupAllTempFiles`. -/
def cleanupMatches (f : List Char) : Bool :=
  endsWithL f (s2c ".tri") || endsWithL f (s2c ".exe") ||
  startsWithL f (s2c "temp_") || f = s2c "privet" || f = s2c "a.out" || f = s2c "main"

/-- `cleanupAllTempFiles`: delete every file in the shared temp
directory matching the filter, regardless of which request created
it. -/
def cleanupAllTempFiles (fs : List (List Char)) : List (List Char) × List Event :=
  (fs.filter (fun f => !cleanupMatches f), (fs.filter cleanupMatches).map Event.deleteFile)

/-- The executable-existence probe of `compileSource` (five recognised
artifact names). -/
def executableExistsCheck (fs : List (List Char)) (baseName : List Char) : Bool :=
  fs.contains baseName || fs.contains (baseName ++ s2c ".exe") ||
  fs.contains (s2c "privet") || fs.contains (s2c "privet.exe") ||
  fs.contains (s2c "a.out")

/-- The compile-success decision of `compileSource`. -/
def compilationSuccessful (exitCode : Int) (output : List Char)
    (fs : List (List Char)) (baseName : List Char) : Bool :=
  exitCode == 0 && (containsSub output (s2c "Без ошибок") || executableExistsCheck fs baseName)

/-- `compileSource`: spawn the compiler, wait with the compilation
timeout (force-kill and throw on timeout), read the merged output after
the wait, and decide success.  There is no asynchronous output reader
and no registry in this service. -/
def compileSource (sessionId : List Char) (env : CompileEnv) (fs : List (List Char)) :
    Except (List Char) (Bool × List Char) × List (List Char) × List Event :=
  let baseName := s2c "temp_" ++ sessionId
  match env.compileProc with
  | .spawnFail m => (.error (s2c "Failed to execute compiler: " ++ m), fs, [])
  | .timedOut =>
    (.error (s2c "Compilation timeout exceeded"), fs,
     [Event.spawn, Event.waitStart, Event.killProc])
  | .exited code raw =>
    let fs2 := fs ++ env.compilerCreates
    let output := readProcessOutput raw
    (.ok (compilationSuccessful code output fs2 baseName, output), fs2,
     [Event.spawn, Event.waitStart, Event.readOutput])

/-- The directory-scan fallback filter of `executeProgram`. -/
def execScanFilter (sourceFileName f : List Char) : Bool :=
  (endsWithL f (s2c ".exe") ||
   (!containsSub f (s2c ".") && !startsWithL f (s2c "_") && f ≠ s2c "api_test.json")) &&
  f ≠ sourceFileName

/-- Executable discovery of `executeProgram`: probe `<base>.exe` then
`<base>`, then scan the directory listing. -/
def findExecutable (sessionId : List Char) (fs : List (List Char)) : Option (List Char) :=
  let baseName := s2c "temp_" ++ sessionId
  let sourceFileName := baseName ++ s2c ".tri"
  if fs.contains (baseName ++ s2c ".exe") then some (baseName ++ s2c ".exe")
  else if fs.contains baseName then some baseName
  else fs.find? (execScanFilter sourceFileName)

/-- `executeProgram`: locate the executable (throwing when none is
found), run it with the execution timeout, read output after the wait,
truncate over-long output, and report success iff the exit code is
zero.  A timeout yields a non-success result, not an exception. -/
def executeProgram (props : JProps) (sessionId : List Char) (env : CompileEnv)
    (fs : List (List Char)) : Except (List Char) (Bool × List Char) × List Event :=
  match findExecutable sessionId fs with
  | none =>
    (.error (s2c "Compiled executable not found. Compilation may have failed silently."), [])
  | some _ =>
    match env.execProc with
    | .spawnFail m => (.error (s2c "Failed to execute program: " ++ m), [])
    | .timedOut =>
      (.ok (false, s2c "Program execution timeout exceeded"),
       [Event.spawn, Event.waitStart, Event.killProc])
    | .exited code raw =>
      let out0 := readProcessOutput raw
      let output :=
        if out0.length > props.maxOutputLength then
          out0.take props.maxOutputLength ++ s2c "\n... (output truncated)"
        else out0
      (.ok (code == 0, output), [Event.spawn, Event.waitStart, Event.readOutput])

/-- `replaceFirst("\\.tri$", "")`. -/
def dropTriSuffix (f : List Char) : List Char :=
  if endsWithL f (s2c ".tri") then f.take (f.length - 4) else f

/-- One iteration of `cleanupFiles`: delete the file if it exists; for a
`.tri` file also delete its base-named and `.exe` artifacts. -/
def cleanupOne (fs : List (List Char)) (f : List Char) : List (List Char) × List Event :=
  if fs.contains f then
    if endsWithL f (s2c ".tri") then
      let bn := dropTriSuffix f
      let targets := [f, bn, bn ++ s2c ".exe"]
      (fs.filter (fun g => !targets.contains g),
       (targets.filter fs.contains).map Event.deleteFile)
    else (fs.erase f, [Event.deleteFile f])
  else (fs, [])

/-- `cleanupFiles` over the source and executable paths. -/
def cleanupFiles (fs : List (List Char)) (files : List (List Char)) :
    List (List Char) × List Event :=
  files.foldl (fun st f =>
    let r := cleanupOne st.1 f
    (r.1, st.2 ++ r.2)) (fs, [])

/-- `compileAndExecute`: input validation before any I/O, defensive
cleanup of the shared temp directory, source write, compile, execute,
outcome classification, and guaranteed `finally` cleanup.  Returns the
response, the final filesystem, and the event trace. -/
def compileAndExecute (props : JProps) (sessionId : List Char) (env : CompileEnv)
    (fs : List (List Char)) (sourceCode : List Char) :
    CompileResponse × List (List Char) × List Event :=
  if (javaTrim sourceCode).isEmpty then
    (CompileResponse.compilationError (s2c "Source code cannot be empty"), fs, [])
  else if sourceCode.length > props.maxSourceCodeLength then
    (CompileResponse.compilationError
      (s2c "Source code exceeds maximum length of " ++
       s2c (toString props.maxSourceCodeLength) ++ s2c " characters"), fs, [])
  else
    let sourceFileName := s2c "temp_" ++ sessionId ++ s2c ".tri"
    let executableName := s2c "temp_" ++ sessionId
    let ev0 := [Event.createDir props.tempDirectory]
    let cleaned := cleanupAllTempFiles fs
    let fs2 := cleaned.1 ++ [sourceFileName]
    let ev2 := cleaned.2 ++ [Event.writeFile sourceFileName]
    match compileSource sessionId env fs2 with
    | (.error m, fsE, evC) =>
      let fin := cleanupFiles fsE [sourceFileName, executableName]
      (CompileResponse.compilationError m, fin.1, ev0 ++ ev2 ++ evC ++ fin.2)
    | (.ok (compiled, out), fs3, evC) =>
      if !compiled then
        let fin := cleanupFiles fs3 [sourceFileName, executableName]
        (CompileResponse.compilationError out, fin.1, ev0 ++ ev2 ++ evC ++ fin.2)
      else
        match executeProgram props sessionId env fs3 with
        | (.error m, evX) =>
          let fin := cleanupFiles fs3 [sourceFileName, executableName]
          (CompileResponse.runtimeError m env.elapsedMs, fin.1,
           ev0 ++ ev2 ++ evC ++ evX ++ fin.2)
        | (.ok (execOk, out2), evX) =>
          let fin := cleanupFiles fs3 [sourceFileName, executableName]
          ((if execOk then CompileResponse.successResponse out2 env.elapsedMs
            else CompileResponse.runtimeError out2 env.elapsedMs),
           fin.1, ev0 ++ ev2 ++ evC ++ evX ++ fin.2)

/-! ### Concrete fixtures for counterexamples and witnesses -/

def cProps : JProps := ⟨s2c "trivil", s2c "/app/temp", 1000, 500, 100, 5⟩

def cPropsSmall : JProps := ⟨s2c "trivil", s2c "/app/temp", 1000, 500, 2, 5⟩

/-- Compiler succeeds (marker output, artifact produced), program runs
past the execution timeout. -/
def cEnvTimeout : CompileEnv :=
  ⟨.exited 0 (s2c "Без ошибок"), [s2c "temp_ab"], .timedOut, 7⟩

/-- Compiler exits zero with the no-errors marker. -/
def cEnvOk : CompileEnv := ⟨.exited 0 (s2c "Без ошибок"), [], .timedOut, 5⟩

/-- Compiler exits non-zero with a long diagnostic. -/
def cEnvFail : CompileEnv :=
  ⟨.exited 1 (s2c "ошибка: неожиданный символ в строке 1"), [], .timedOut, 5⟩

/-! ### C1 — execution timeout outcome kind -/

/-- C1 counterexample: with a successfully compiled program whose
execution exceeds the timeout, `compileAndExecute` returns resultType
`runtime_error`, not `timeout` — refuting the claim that the timeout
outcome kind is returned. -/
theorem executionTimeout_kind_cex :
    cEnvTimeout.execProc = ProcResult.timedOut ∧
    (compileAndExecute cProps (s2c "ab") cEnvTimeout [] (s2c "а")).1.resultType ≠
      s2c "timeout" ∧
    (compileAndExecute cProps (s2c "ab") cEnvTimeout [] (s2c "а")).1.resultType =
      s2c "runtime_error" := by
  refine ⟨rfl, ?_, ?_⟩ <;> decide

/-- C1 (amended): for every run in which the compile step succeeds, an
executable is found, and the program does not exit within the execution
timeout, `compileAndExecute` returns the `runtimeError` kind carrying
the message `Program execution timeout exceeded`; the `timeout` result
kind is not produced. -/
theorem executionTimeout_runtimeError (props : JProps) (sessionId : List Char)
    (env : CompileEnv) (fs : List (List Char)) (sourceCode : List Char)
    (code : Int) (raw : List Char)
    (h1 : (javaTrim sourceCode).isEmpty = false)
    (h2 : ¬ sourceCode.length > props.maxSourceCodeLength)
    (h3 : env.compileProc = .exited code raw)
    (h4 : compilationSuccessful code (readProcessOutput raw)
        ((cleanupAllTempFiles fs).1 ++ [s2c "temp_" ++ sessionId ++ s2c ".tri"] ++
          env.compilerCreates) (s2c "temp_" ++ sessionId) = true)
    (h5 : env.execProc = .timedOut)
    (h6 : (findExecutable sessionId
        ((cleanupAllTempFiles fs).1 ++ [s2c "temp_" ++ sessionId ++ s2c ".tri"] ++
          env.compilerCreates)).isSome = true) :
    (compileAndExecute props sessionId env fs sourceCode).1 =
      CompileResponse.runtimeError (s2c "Program execution timeout exceeded")
        env.elapsedMs ∧
    (compileAndExecute props sessionId env fs sourceCode).1.resultType ≠
      s2c "timeout" := by
  obtain ⟨exe, hexe⟩ := Option.isSome_iff_exists.mp h6
  have hmain : (compileAndExecute props sessionId env fs sourceCode).1 =
      CompileResponse.runtimeError (s2c "Program execution timeout exceeded")
        env.elapsedMs := by
    unfold compileAndExecute
    rw [if_neg (by simp [h1]), if_neg h2]
    simp only [compileSource, h3, executeProgram, hexe, h5, h4, Bool.not_true]
    simp
  refine ⟨hmain, ?_⟩
  rw [hmain]
  show (s2c "runtime_error" : List Char) ≠ s2c "timeout"
  decide

/-- C1 witness: the amended theorem applied to the concrete timeout
environment. -/
theorem executionTimeout_runtimeError_witness :
    (compileAndExecute cProps (s2c "ab") cEnvTimeout [] (s2c "а")).1 =
      CompileResponse.runtimeError (s2c "Program execution timeout exceeded") 7 ∧
    (compileAndExecute cProps (s2c "ab") cEnvTimeout [] (s2c "а")).1.resultType ≠
      s2c "timeout" :=
  executionTimeout_runtimeError cProps (s2c "ab") cEnvTimeout [] (s2c "а") 0
    (s2c "Без ошибок") (by decide) (by decide) rfl (by decide) rfl (by decide)

/-! ### C5 — compile-success decision -/

/-- C5: when the compiler process exits, `compileSource` reports success
iff the exit code is zero and (the output contains the no-errors marker
or an artifact exists under one of the recognised naming
conventions). -/
theorem compileSuccess_iff (sessionId : List Char) (env : CompileEnv)
    (fs : List (List Char)) (code : Int) (raw : List Char)
    (h : env.compileProc = .exited code raw) :
    (compileSource sessionId env fs).1 =
      Except.ok (compilationSuccessful code (readProcessOutput raw)
          (fs ++ env.compilerCreates) (s2c "temp_" ++ sessionId),
        readProcessOutput raw) ∧
    (compilationSuccessful code (readProcessOutput raw) (fs ++ env.compilerCreates)
        (s2c "temp_" ++ sessionId) = true ↔
      code = 0 ∧
        (containsSub (readProcessOutput raw) (s2c "Без ошибок") = true ∨
          executableExistsCheck (fs ++ env.compilerCreates)
            (s2c "temp_" ++ sessionId) = true)) := by
  constructor
  · simp [compileSource, h]
  · simp [compilationSuccessful, Bool.and_eq_true, Bool.or_eq_true, beq_iff_eq]

/-- C5 witness at a concrete successful compile. -/
theorem compileSuccess_iff_witness :
    cEnvOk.compileProc = ProcResult.exited 0 (s2c "Без ошибок") ∧
    ((compileSource (s2c "ab") cEnvOk []).1 =
      Except.ok (compilationSuccessful 0 (readProcessOutput (s2c "Без ошибок")) []
          (s2c "temp_ab"), readProcessOutput (s2c "Без ошибок")) ∧
    (compilationSuccessful 0 (readProcessOutput (s2c "Без ошибок")) [] (s2c "temp_ab") =
        true ↔
      (0 : Int) = 0 ∧
        (containsSub (readProcessOutput (s2c "Без ошибок")) (s2c "Без ошибок") = true ∨
          executableExistsCheck [] (s2c "temp_ab") = true))) :=
  ⟨rfl, compileSuccess_iff (s2c "ab") cEnvOk [] 0 (s2c "Без ошибок") rfl⟩

/-! ### C6 — over-length input rejected before any I/O -/

/-- C6: a source string longer than the configured maximum yields a
`compilationError` response while the filesystem is untouched and the
event trace is empty (no directory, file, or process effect). -/
theorem overlength_rejected_before_io (props : JProps) (sessionId : List Char)
    (env : CompileEnv) (fs : List (List Char)) (sourceCode : List Char)
    (h : sourceCode.length > props.maxSourceCodeLength) :
    (compileAndExecute props sessionId env fs sourceCode).1.resultType =
      s2c "compilation_error" ∧
    (compileAndExecute props sessionId env fs sourceCode).2.1 = fs ∧
    (compileAndExecute props sessionId env fs sourceCode).2.2 = [] := by
  unfold compileAndExecute
  by_cases he : (javaTrim sourceCode).isEmpty
  · simp [he, CompileResponse.compilationError]
  · simp [he, h, CompileResponse.compilationError]

/-- C6 witness: a three-character source against a two-character
limit. -/
theorem overlength_rejected_before_io_witness :
    (s2c "abc").length > cPropsSmall.maxSourceCodeLength ∧
    ((compileAndExecute cPropsSmall (s2c "ab") cEnvOk [] (s2c "abc")).1.resultType =
      s2c "compilation_error" ∧
    (compileAndExecute cPropsSmall (s2c "ab") cEnvOk [] (s2c "abc")).2.1 = [] ∧
    (compileAndExecute cPropsSmall (s2c "ab") cEnvOk [] (s2c "abc")).2.2 = []) :=
  ⟨by decide,
   overlength_rejected_before_io cPropsSmall (s2c "ab") cEnvOk [] (s2c "abc") (by decide)⟩

/-! ### C10 — compiler diagnostics are never truncated -/

/-- C10: when the compiler completes but the success test fails,
`compileAndExecute` returns `compilationError` carrying the whole
captured compiler output; the result does not depend on
`maxOutputLength`, so no truncation is applied. -/
theorem compileFailure_output_untruncated (props : JProps) (sessionId : List Char)
    (env : CompileEnv) (fs : List (List Char)) (sourceCode : List Char)
    (code : Int) (raw : List Char)
    (h1 : (javaTrim sourceCode).isEmpty = false)
    (h2 : ¬ sourceCode.length > props.maxSourceCodeLength)
    (h3 : env.compileProc = .exited code raw)
    (h4 : compilationSuccessful code (readProcessOutput raw)
        ((cleanupAllTempFiles fs).1 ++ [s2c "temp_" ++ sessionId ++ s2c ".tri"] ++
          env.compilerCreates) (s2c "temp_" ++ sessionId) = false) :
    (compileAndExecute props sessionId env fs sourceCode).1 =
      CompileResponse.compilationError (readProcessOutput raw) := by
  unfold compileAndExecute
  rw [if_neg (by simp [h1]), if_neg h2]
  simp only [compileSource, h3, h4, Bool.not_false]
  simp

/-- C10 witness: the compiler diagnostic is seven times longer than
`maxOutputLength`, yet is returned whole. -/
theorem compileFailure_output_untruncated_witness :
    (readProcessOutput (s2c "ошибка: неожиданный символ в строке 1")).length >
      cProps.maxOutputLength ∧
    (compileAndExecute cProps (s2c "ab") cEnvFail [] (s2c "а")).1 =
      CompileResponse.compilationError
        (readProcessOutput (s2c "ошибка: неожиданный символ в строке 1")) :=
  ⟨by decide,
   compileFailure_output_untruncated cProps (s2c "ab") cEnvFail [] (s2c "а") 1
     (s2c "ошибка: неожиданный символ в строке 1")
     (by decide) (by decide) rfl (by decide)⟩

/-! ### C2 — output draining versus the exit wait -/

/-- Scans an event trace: `true` iff an asynchronous output-drain task
starts before the first wait-for-exit begins (vacuously true when no
wait occurs). -/
def drainsBeforeWait : List Event → Bool
  | [] => true
  | Event.waitStart :: _ => false
  | Event.drainStart :: _ => true
  | _ :: rest => drainsBeforeWait rest

/-- C2 counterexample: the compile-service compiler invocation spawns a
process and begins the bounded wait with no drain task started before
it (output is read only after the wait), refuting the claim for the
compiler invocation. -/
theorem compiler_drain_missing_cex :
    (compileSource (s2c "ab") cEnvOk []).2.2.contains Event.spawn = true ∧
    (compileSource (s2c "ab") cEnvOk []).2.2.contains Event.waitStart = true ∧
    drainsBeforeWait (compileSource (s2c "ab") cEnvOk []).2.2 = false := by
  refine ⟨?_, ?_, ?_⟩ <;> decide

/-- C2 (amended): the AST-dump runner always starts its drain task
before the bounded wait, while the compile service's compiler and
program invocations never start a drain task at all. -/
theorem drainBeforeWait_only_astRunner (t : Nat) (renv : RunnerEnv) (sf : List Char)
    (cnt : Nat) (reg : List (List Char)) (sessionId : List Char) (cenv : CompileEnv)
    (fs : List (List Char)) (props : JProps) :
    drainsBeforeWait (runCompilerToolSafely t renv sf cnt reg).2.2 = true ∧
    (compileSource sessionId cenv fs).2.2.contains Event.drainStart = false ∧
    (executeProgram props sessionId cenv fs).2.contains Event.drainStart = false := by
  refine ⟨?_, ?_, ?_⟩
  · obtain ⟨proc, dk, zk, af⟩ := renv
    cases proc <;> simp [runCompilerToolSafely, drainsBeforeWait]
  · obtain ⟨cp, cc, ep, el⟩ := cenv
    cases cp <;> simp [compileSource]
  · obtain ⟨cp, cc, ep, el⟩ := cenv
    cases hfe : findExecutable sessionId fs <;>
      cases ep <;> simp [executeProgram, hfe]

/-! ### C4 — registry registration discipline -/

/-- Scans a trace: `true` iff the given process id is registered before
the first wait-for-exit begins (vacuously true when no wait occurs). -/
def registeredBeforeWait (pid : List Char) : List Event → Bool
  | [] => true
  | Event.waitStart :: _ => false
  | Event.register p :: rest => if p = pid then true else registeredBeforeWait pid rest
  | _ :: rest => registeredBeforeWait pid rest

/-- Recognises registration events. -/
def isRegisterEvent : Event → Bool
  | .register _ => true
  | _ => false

/-- C4 counterexample: the compile service's compiler and program
invocations spawn processes but perform no registration at all,
refuting the claim that every spawned external process is registered
before the exit wait. -/
theorem compileService_process_unregistered_cex :
    (compileSource (s2c "cd") cEnvOk []).2.2.contains Event.spawn = true ∧
    (compileSource (s2c "cd") cEnvOk []).2.2.filter isRegisterEvent = [] ∧
    (executeProgram cProps (s2c "ab") cEnvTimeout [s2c "temp_ab"]).2.contains
      Event.spawn = true ∧
    (executeProgram cProps (s2c "ab") cEnvTimeout [s2c "temp_ab"]).2.filter
      isRegisterEvent = [] := by
  refine ⟨?_, ?_, ?_, ?_⟩ <;> decide

/-- The timed-out or finished runner entry cannot survive the sweep
plus the `finally` removal. -/
theorem not_mem_erase_filter_append (pid : List Char) (reg : List (List Char))
    (keep : List Char → Bool) (h : pid ∉ reg) :
    pid ∉ ((reg ++ [pid]).filter keep).erase pid := by
  rw [List.filter_append]
  have hreg : pid ∉ reg.filter keep := fun hm => h (List.mem_of_mem_filter hm)
  cases hk : keep pid with
  | false =>
    rw [show ([pid]).filter keep = [] from by simp [hk], List.append_nil]
    intro hm
    exact hreg (List.mem_of_mem_erase hm)
  | true =>
    rw [show ([pid]).filter keep = [pid] from by simp [hk],
      List.erase_append_right _ hreg]
    simp [hreg]

/-- C4 (amended): in the AST-dump runner, whenever a process is spawned
its id is registered before the exit wait begins, and on every path —
normal, timeout, and spawn failure — the `finally` removal runs exactly
once and the id is absent from the final registry. -/
theorem registry_discipline_astRunner (t : Nat) (renv : RunnerEnv) (sf : List Char)
    (cnt : Nat) (reg : List (List Char))
    (h : ¬ (s2c "compiler-" ++ s2c (toString (cnt + 1))) ∈ reg) :
    registeredBeforeWait (s2c "compiler-" ++ s2c (toString (cnt + 1)))
      (runCompilerToolSafely t renv sf cnt reg).2.2 = true ∧
    ¬ (s2c "compiler-" ++ s2c (toString (cnt + 1))) ∈
        (runCompilerToolSafely t renv sf cnt reg).2.1 ∧
    (runCompilerToolSafely t renv sf cnt reg).2.2.count
      (Event.deregister (s2c "compiler-" ++ s2c (toString (cnt + 1)))) = 1 := by
  obtain ⟨proc, dk, zk, af⟩ := renv
  cases proc with
  | spawnFail m =>
    refine ⟨by simp [runCompilerToolSafely, registeredBeforeWait], ?_, ?_⟩
    · intro hm
      exact h (List.mem_of_mem_erase hm)
    · simp [runCompilerToolSafely]
  | timedOut =>
    refine ⟨by simp [runCompilerToolSafely, registeredBeforeWait], ?_, ?_⟩
    · simpa [runCompilerToolSafely, cleanupZombieProcesses] using
        not_mem_erase_filter_append _ reg zk h
    · cases af <;> simp [runCompilerToolSafely, List.count_cons]
  | exited code raw =>
    refine ⟨by simp [runCompilerToolSafely, registeredBeforeWait], ?_, ?_⟩
    · rw [show (runCompilerToolSafely t ⟨.exited code raw, dk, zk, af⟩ sf cnt reg).2.1 =
        (reg ++ [s2c "compiler-" ++ s2c (toString (cnt + 1))]).erase
          (s2c "compiler-" ++ s2c (toString (cnt + 1))) from rfl]
      rw [List.erase_append_right _ h]
      simp [h]
    · cases af <;> simp [runCompilerToolSafely, List.count_cons]

/-- C4 witness: the amended theorem at a concrete runner environment
and an empty initial registry. -/
theorem registry_discipline_astRunner_witness :
    ¬ (s2c "compiler-" ++ s2c (toString (0 + 1))) ∈ ([] : List (List Char)) ∧
    (registeredBeforeWait (s2c "compiler-" ++ s2c (toString (0 + 1)))
      (runCompilerToolSafely 1000 ⟨.timedOut, true, fun _ => false, false⟩
        (s2c "модуль м") 0 []).2.2 = true ∧
    ¬ (s2c "compiler-" ++ s2c (toString (0 + 1))) ∈
        (runCompilerToolSafely 1000 ⟨.timedOut, true, fun _ => false, false⟩
          (s2c "модуль м") 0 []).2.1 ∧
    (runCompilerToolSafely 1000 ⟨.timedOut, true, fun _ => false, false⟩
        (s2c "модуль м") 0 []).2.2.count
      (Event.deregister (s2c "compiler-" ++ s2c (toString (0 + 1)))) = 1) :=
  ⟨by simp,
   registry_discipline_astRunner 1000 ⟨.timedOut, true, fun _ => false, false⟩
     (s2c "модуль м") 0 [] (by simp)⟩

/-! ### C3 — workspace sharing between requests -/

/-- The per-request isolated directory created by the analyze service
(`baseTempDir.resolve("session_" + sessionId)`). -/
def sessionDir (tempDirectory sessionId : List Char) : List Char :=
  tempDirectory ++ s2c "/" ++ s2c "session_" ++ sessionId

/-- C3 counterexample: in the compile service all requests use the one
shared temp directory, and a request's defensive cleanup deletes the
in-flight source file `temp_aaaaaaaa.tri` owned by a different request
(session `aaaaaaaa` ≠ session `bbbbbbbb`). -/
theorem sharedTempDir_cleanup_deletes_foreign_cex :
    s2c "aaaaaaaa" ≠ s2c "bbbbbbbb" ∧
    (compileAndExecute cProps (s2c "bbbbbbbb") cEnvOk
        [s2c "temp_" ++ s2c "aaaaaaaa" ++ s2c ".tri"] (s2c "а")).2.2.contains
      (Event.deleteFile (s2c "temp_" ++ s2c "aaaaaaaa" ++ s2c ".tri")) = true := by
  exact ⟨by decide, by decide⟩

/-- C3 (amended): the analyze service's per-request session directories
are distinct for distinct session ids, while in the compile service a
request's `cleanupAllTempFiles` deletes every file matching the
temp-file patterns present in the shared directory, regardless of which
request created it. -/
theorem workspace_isolation_amended :
    (∀ tmp id1 id2 : List Char, id1 ≠ id2 →
      sessionDir tmp id1 ≠ sessionDir tmp id2) ∧
    (∀ fs : List (List Char), ∀ f : List Char, f ∈ fs → cleanupMatches f = true →
      Event.deleteFile f ∈ (cleanupAllTempFiles fs).2) := by
  constructor
  · intro tmp id1 id2 hne heq
    simp only [sessionDir] at heq
    exact hne (List.append_cancel_left heq)
  · intro fs f hmem hmatch
    exact List.mem_map.mpr ⟨f, List.mem_filter.mpr ⟨hmem, hmatch⟩, rfl⟩

/-- C3 witness: two distinct session ids get distinct directories, and
a matching foreign file is deleted by the shared-directory cleanup. -/
theorem workspace_isolation_amended_witness :
    (s2c "x" ≠ s2c "y") ∧
    sessionDir (s2c "/app/temp") (s2c "x") ≠ sessionDir (s2c "/app/temp") (s2c "y") ∧
    s2c "a.tri" ∈ [s2c "a.tri"] ∧ cleanupMatches (s2c "a.tri") = true ∧
    Event.deleteFile (s2c "a.tri") ∈ (cleanupAllTempFiles [s2c "a.tri"]).2 :=
  ⟨by decide, workspace_isolation_amended.1 _ _ _ (by decide),
   by simp, by decide,
   workspace_isolation_amended.2 [s2c "a.tri"] (s2c "a.tri") (by simp) (by decide)⟩

/-! ### C9 — idempotence of module wrapping -/

theorem nil_isPrefixOf (l : List Char) : List.isPrefixOf [] l = true := by
  cases l <;> rfl

theorem isPrefixOf_append_left (p : List Char) : ∀ (l X : List Char),
    p.isPrefixOf l = true → p.isPrefixOf (l ++ X) = true := by
  induction p with
  | nil => intro l X _; exact nil_isPrefixOf _
  | cons a as ih =>
    intro l X h
    cases l with
    | nil => simp [List.isPrefixOf] at h
    | cons b bs =>
      rw [List.cons_append]
      show (a == b && as.isPrefixOf (bs ++ X)) = true
      rw [show ((a :: as).isPrefixOf (b :: bs)) = (a == b && as.isPrefixOf bs) from rfl]
        at h
      simp only [Bool.and_eq_true] at h ⊢
      exact ⟨h.1, ih bs X h.2⟩

/-- Trimming an appended string keeps a leading block whose first and
last characters are not whitespace, so any prefix of that block is a
prefix of the trimmed result. -/
theorem trim_append_isPrefixOf (pre p q : List Char)
    (hne : p ≠ [])
    (hp : p.dropWhile javaSpace = p)
    (hlast : (p.reverse.dropWhile javaSpace).reverse = p)
    (hpre : pre.isPrefixOf p = true) :
    pre.isPrefixOf (javaTrim (p ++ q)) = true := by
  unfold javaTrim
  rw [List.dropWhile_append, hp,
    show p.isEmpty = false from by simpa [List.isEmpty_iff] using hne]
  simp only [Bool.false_eq_true, if_false, List.reverse_append, List.dropWhile_append]
  cases hqe : (q.reverse.dropWhile javaSpace).isEmpty with
  | true =>
    simp only [hqe, if_true, hlast]
    exact hpre
  | false =>
    simp only [hqe, Bool.false_eq_true, if_false, List.reverse_append,
      List.reverse_reverse]
    exact isPrefixOf_append_left pre p _ hpre

/-- C9: `wrapInTrivilModule` is idempotent (for any pair of wall-clock
readings), and any input whose trimmed text already starts with the
module keyword `модуль ` is returned unchanged. -/
theorem wrapInTrivilModule_idempotent :
    (∀ t1 t2 : Nat, ∀ s : List Char,
      wrapInTrivilModule t2 (wrapInTrivilModule t1 s) = wrapInTrivilModule t1 s) ∧
    (∀ t : Nat, ∀ s : List Char,
      startsWithL (javaTrim s) (s2c "модуль ") = true → wrapInTrivilModule t s = s) := by
  have hmod : ∀ t1 : Nat, ∀ s : List Char,
      startsWithL (javaTrim (wrapInTrivilModule t1 s)) (s2c "модуль ") = true := by
    intro t1 s
    by_cases h : startsWithL (javaTrim s) (s2c "модуль ") = true
    · rw [wrapInTrivilModule, if_pos h]
      exact h
    · rw [wrapInTrivilModule, if_neg h]
      rw [show s2c "модуль " ++ s2c "sample_" = s2c "модуль sample_" from rfl]
      simp only [List.append_assoc]
      exact trim_append_isPrefixOf (s2c "модуль ") (s2c "модуль sample_") _
        (by decide) (by decide) (by decide) (by decide)
  constructor
  · intro t1 t2 s
    conv_lhs => rw [wrapInTrivilModule]
    rw [if_pos (hmod t1 s)]
  · intro t s h
    rw [wrapInTrivilModule, if_pos h]

/-- C9 witness: an input already carrying a module header is returned
unchanged, and double wrapping a plain input equals single wrapping. -/
theorem wrapInTrivilModule_idempotent_witness :
    startsWithL (javaTrim (s2c "модуль м вх")) (s2c "модуль ") = true ∧
    wrapInTrivilModule 5 (s2c "модуль м вх") = s2c "модуль м вх" ∧
    wrapInTrivilModule 9 (wrapInTrivilModule 5 (s2c "пусть а = 1")) =
      wrapInTrivilModule 5 (s2c "пусть а = 1") :=
  ⟨by decide, wrapInTrivilModule_idempotent.2 5 (s2c "модуль м вх") (by decide),
   wrapInTrivilModule_idempotent.1 5 9 (s2c "пусть а = 1")⟩

/-! ### C7 — silent fallback to static tokens -/

theorem mem_map_semanticInfo_none {β : Type} (l : List β) (f : β → SyntaxToken)
    (hf : ∀ m, (f m).semanticInfo = none) :
    ∀ t ∈ l.map f, t.semanticInfo = none := by
  intro t ht
  rcases List.mem_map.mp ht with ⟨m, _, rfl⟩
  exact hf m

theorem analyzeIdents_semanticInfo_none (line : List Char) (n : Nat)
    (ranges : List (Nat × Nat)) (gF gP gV : List (List Char)) :
    ∀ t ∈ analyzeGlobalContextAwareIdentifiers line n ranges gF gP gV,
      t.semanticInfo = none := by
  intro t ht
  unfold analyzeGlobalContextAwareIdentifiers at ht
  exact mem_map_semanticInfo_none _ _ (fun _ => rfl) t ht

/-- Every token emitted by the per-line analysis carries no semantic
tag: each construction site passes `null`. -/
theorem analyzeLine_semanticInfo_none (line : List Char) (n : Nat)
    (gF gP gV : List (List Char)) :
    ∀ t ∈ analyzeLineTokensWithGlobalContext line n gF gP gV, t.semanticInfo = none := by
  intro t ht
  unfold analyzeLineTokensWithGlobalContext at ht
  cases hc : findCommentIdx line 0 with
  | none =>
    rw [hc] at ht
    simp only [List.nil_append, List.mem_append] at ht
    rcases ht with ((hs | hn) | hi) | ho
    · exact mem_map_semanticInfo_none _ _ (fun _ => rfl) t hs
    · exact mem_map_semanticInfo_none _ _ (fun _ => rfl) t hn
    · exact analyzeIdents_semanticInfo_none _ _ _ _ _ _ t hi
    · exact mem_map_semanticInfo_none _ _ (fun _ => rfl) t ho
  | some i =>
    rw [hc] at ht
    simp only [List.mem_append, List.mem_singleton] at ht
    rcases ht with (((hcm | hs) | hn) | hi) | ho
    · rw [hcm]
    · exact mem_map_semanticInfo_none _ _ (fun _ => rfl) t hs
    · exact mem_map_semanticInfo_none _ _ (fun _ => rfl) t hn
    · exact analyzeIdents_semanticInfo_none _ _ _ _ _ _ t hi
    · exact mem_map_semanticInfo_none _ _ (fun _ => rfl) t ho

/-- No token of the static pass carries a semantic tag. -/
theorem static_semanticInfo_none (src : List Char) :
    ∀ t ∈ performStaticLexicalAnalysis src, t.semanticInfo = none := by
  intro t ht
  unfold performStaticLexicalAnalysis performStaticWith at ht
  rcases List.mem_flatMap.mp ht with ⟨p, _, hp⟩
  exact analyzeLine_semanticInfo_none _ _ _ _ _ t hp

/-- C7: whenever the AST-dump invocation fails (spawn failure or
timeout, surfaced as a thrown exception), `analyzeSyntax` returns
exactly the static-pass token list, and no returned token carries a
semantic tag. -/
theorem analyzeSyntax_fallback_static (env : AnalyzeEnv) (src msg : List Char)
    (h : (runCompilerToolSafely env.compilationTimeoutMs env.runner
        (wrapInTrivilModule env.nowMod (sanitizeInput src)) env.counter
        env.registry0).1 = Except.error msg) :
    analyzeSyntax env src = performStaticLexicalAnalysis (sanitizeInput src) ∧
    ∀ t ∈ analyzeSyntax env src, t.semanticInfo = none := by
  have hres : analyzeSyntax env src = performStaticLexicalAnalysis (sanitizeInput src) := by
    unfold analyzeSyntax
    cases hf : env.fsOk with
    | false => simp [hf]
    | true =>
      simp only [hf, if_true]
      rw [h]
  refine ⟨hres, ?_⟩
  rw [hres]
  exact static_semanticInfo_none _

/-- Concrete analyze environment whose AST-dump invocation times
out. -/
def aEnvFail : AnalyzeEnv := ⟨true, 5, ⟨.timedOut, true, fun _ => false, false⟩, 0, [], 1000⟩

/-- C7 witness: the fallback theorem at a concrete timed-out AST dump
and a concrete snippet. -/
theorem analyzeSyntax_fallback_static_witness :
    (runCompilerToolSafely aEnvFail.compilationTimeoutMs aEnvFail.runner
        (wrapInTrivilModule aEnvFail.nowMod (sanitizeInput (s2c "пусть а = 1")))
        aEnvFail.counter aEnvFail.registry0).1 =
      Except.error (s2c "Compiler tool timed out after " ++ s2c (toString 1000) ++
        s2c "ms") ∧
    analyzeSyntax aEnvFail (s2c "пусть а = 1") =
      performStaticLexicalAnalysis (sanitizeInput (s2c "пусть а = 1")) :=
  ⟨rfl, (analyzeSyntax_fallback_static aEnvFail (s2c "пусть а = 1") _ rfl).1⟩

/-! ### C8 — determinism of the static lexical pass

The embedding is a pure function, so the only source of run-to-run
variation in the Java original is the internal representation (hash
order) of the three global `HashSet`s, which the pass consults solely
through `contains`.  Determinism is therefore formalised as: the token
stream depends only on the membership of the global declaration sets —
any two representations with the same membership, as arise in two calls
on identical input, produce identical token sequences. -/

theorem classifyWithContext_congr {gF gF' gP gP' gV gV' : List (List Char)}
    (hF : ∀ x, gF.contains x = gF'.contains x)
    (hP : ∀ x, gP.contains x = gP'.contains x)
    (hV : ∀ x, gV.contains x = gV'.contains x)
    (lF lP calls : List (List Char)) (t : List Char) :
    classifyWithContext lF lP calls gF gP gV t =
      classifyWithContext lF lP calls gF' gP' gV' t := by
  unfold classifyWithContext
  rw [hF t, hP t, hV t]

theorem functionCallsIn_congr {gF gF' : List (List Char)}
    (hF : ∀ x, gF.contains x = gF'.contains x) (line : List Char)
    (lF : List (List Char)) :
    functionCallsIn line gF lF = functionCallsIn line gF' lF := by
  unfold functionCallsIn
  exact List.filter_congr (fun a _ => by rw [hF a])

theorem analyzeIdents_congr {gF gF' gP gP' gV gV' : List (List Char)}
    (hF : ∀ x, gF.contains x = gF'.contains x)
    (hP : ∀ x, gP.contains x = gP'.contains x)
    (hV : ∀ x, gV.contains x = gV'.contains x)
    (line : List Char) (n : Nat) (ranges : List (Nat × Nat)) :
    analyzeGlobalContextAwareIdentifiers line n ranges gF gP gV =
      analyzeGlobalContextAwareIdentifiers line n ranges gF' gP' gV' := by
  simp only [analyzeGlobalContextAwareIdentifiers]
  rw [functionCallsIn_congr hF]
  exact List.map_congr_left (fun m _ => by
    rw [classifyWithContext_congr hF hP hV])

theorem analyzeLine_congr {gF gF' gP gP' gV gV' : List (List Char)}
    (hF : ∀ x, gF.contains x = gF'.contains x)
    (hP : ∀ x, gP.contains x = gP'.contains x)
    (hV : ∀ x, gV.contains x = gV'.contains x)
    (line : List Char) (n : Nat) :
    analyzeLineTokensWithGlobalContext line n gF gP gV =
      analyzeLineTokensWithGlobalContext line n gF' gP' gV' := by
  unfold analyzeLineTokensWithGlobalContext
  cases hc : findCommentIdx line 0 <;>
    simp only [hc] <;> rw [analyzeIdents_congr hF hP hV]

/-- C8: the static pass is deterministic.  The first component links
the entry point to its parameterised core; the second states that the
token stream produced on a given input depends only on the membership
of the three global declaration sets, so two runs on identical input —
whatever internal order the hash sets take — emit identical token
sequences. -/
theorem staticLexicalAnalysis_deterministic (src : List Char)
    (gF gF' gP gP' gV gV' : List (List Char))
    (hF : ∀ x, gF.contains x = gF'.contains x)
    (hP : ∀ x, gP.contains x = gP'.contains x)
    (hV : ∀ x, gV.contains x = gV'.contains x) :
    performStaticLexicalAnalysis src =
      performStaticWith ((splitLinesJava src).flatMap extractFunctionNamesLine)
        ((splitLinesJava src).flatMap extractParameterNamesLine)
        ((splitLinesJava src).flatMap extractVariableNamesLine) src ∧
    performStaticWith gF gP gV src = performStaticWith gF' gP' gV' src := by
  refine ⟨rfl, ?_⟩
  unfold performStaticWith
  generalize (splitLinesJava src).enum = L
  induction L with
  | nil => rfl
  | cons p L ih =>
    simp only [List.flatMap_cons]
    rw [analyzeLine_congr hF hP hV, ih]

/-- C8 witness: two representations of the same global sets — one with
duplicated entries — yield the same token stream on a concrete
input. -/
theorem staticLexicalAnalysis_deterministic_witness :
    performStaticWith [s2c "ф"] [s2c "п"] [s2c "в"] (s2c "ф(п) в") =
      performStaticWith [s2c "ф", s2c "ф"] [s2c "п", s2c "п"] [s2c "в", s2c "в"]
        (s2c "ф(п) в") :=
  (staticLexicalAnalysis_deterministic (s2c "ф(п) в")
    [s2c "ф"] [s2c "ф", s2c "ф"] [s2c "п"] [s2c "п", s2c "п"] [s2c "в"] [s2c "в", s2c "в"]
    (fun x => by cases hx : x == s2c "ф" <;> simp [List.contains, List.elem, hx])
    (fun x => by cases hx : x == s2c "п" <;> simp [List.contains, List.elem, hx])
    (fun x => by cases hx : x == s2c "в" <;> simp [List.contains, List.elem, hx])).2

end Trivil
